import Mathlib

/-!
Shallow embedding of the `rss-mcp-client` repository's core:

* `MCPClientWrapper._execute_with_retry` (src/client/mcp_client.py, lines 90-149)
  — the retry supervisor: bounded retries, exponential backoff, error
  classification (timeout vs validation vs other).
* `MCPClientWrapper.__init__` and `list_tools` (src/client/mcp_client.py) and the
  duplicate `MCPClientWrapper.__init__` in src/rss_client.py — endpoint scheme
  validation and tool discovery.
* `LLMBridge.process_query` / `AnthropicBridge` (src/client/anthropic_bridge.py)
  — tool-catalog caching, tool-call parsing and dispatch, the array-item-type
  inference of `_infer_array_item_type` and `to_anthropic_format`.
* `tool_loop` / `other_call` / `get_feed_call` (src/client/tool_workflows.py) and
  `agent_input` (src/client/interface.py) — the orchestration loop and its
  reply-extraction fallbacks.

Python exceptions are modelled with explicit sum types; attempt outcomes of the
wrapped async operation are supplied as scripts (functions from the attempt
index); instance attributes become fields of explicit state records.
-/

deriving instance DecidableEq for Except

namespace RssMcpClient

/-! ## Retry supervisor (`MCPClientWrapper._execute_with_retry`) -/

/-- Outcome of one attempt of the wrapped operation, as observed by the
`try`/`except` clauses of `_execute_with_retry`:
`asyncio.TimeoutError`, a `ValueError`/`TypeError` (the non-retryable
classification errors of line 134), any other exception, or success. -/
inductive AttemptOutcome (α : Type) where
  | success (v : α)
  | timeout
  | validationError (msg : String)
  | otherError (msg : String)
deriving Repr, DecidableEq

/-- The `last_exception` variable of `_execute_with_retry`: initially `None`,
afterwards the `MCPTimeoutError` built on line 124 or the raw exception kept on
line 130. -/
inductive LastExc where
  | noExc
  | timeoutExc (msg : String)
  | validationExc (msg : String)
  | otherExc (msg : String)
deriving Repr, DecidableEq

/-- `str(last_exception)` as used in the `MCPConnectionError` message. -/
def LastExc.str : LastExc → String
  | .noExc => "None"
  | .timeoutExc m => m
  | .validationExc m => m
  | .otherExc m => m

/-- What `_execute_with_retry` ultimately does: return the operation's result,
raise `MCPTimeoutError`, or raise `MCPConnectionError`. -/
inductive RetryOutcome (α : Type) where
  | ok (v : α)
  | timeoutError (msg : String)
  | connectionError (msg : String)
deriving Repr, DecidableEq

/-- Observable trace of one `_execute_with_retry` call: its outcome, how many
attempts were made (loop iterations entered), and the `asyncio.sleep` waits
performed between attempts, in order. -/
structure RetryTrace (α : Type) where
  result : RetryOutcome α
  attempts : Nat
  waits : List Nat
deriving Repr, DecidableEq

/-- The message of the `MCPTimeoutError` built on lines 124-126. -/
def timeoutMsg (opName : String) (timeout : Nat) : String :=
  opName ++ " timed out after " ++ toString timeout ++ " seconds"

/-- The raise on lines 143-149: `MCPTimeoutError` if the last exception was one,
otherwise `MCPConnectionError` naming the operation and `self.max_retries`. -/
def finalRaise (opName : String) (maxRetries : Nat) : LastExc → RetryOutcome α
  | .timeoutExc m => .timeoutError m
  | last => .connectionError
      (opName ++ " failed after " ++ toString maxRetries ++ " attempts: " ++ last.str)

/-- The `for attempt in range(self.max_retries)` loop of `_execute_with_retry`,
by recursion on the remaining iteration count; `attempt` is the current loop
index and `last` the `last_exception` variable. A success returns immediately;
a `ValueError`/`TypeError` breaks out of the loop; a timeout or other exception
records itself and, when `attempt < max_retries - 1`, waits `2 ^ attempt`
before the next iteration. -/
def retryGo (opName : String) (timeout maxRetries : Nat)
    (script : Nat → AttemptOutcome α) :
    Nat → Nat → LastExc → RetryTrace α
  | 0, _, last => ⟨finalRaise opName maxRetries last, 0, []⟩
  | remaining + 1, attempt, _ =>
    match script attempt with
    | .success v => ⟨.ok v, 1, []⟩
    | .timeout =>
      let last := LastExc.timeoutExc (timeoutMsg opName timeout)
      let ws := if attempt + 1 < maxRetries then [2 ^ attempt] else []
      let t := retryGo opName timeout maxRetries script remaining (attempt + 1) last
      ⟨t.result, t.attempts + 1, ws ++ t.waits⟩
    | .validationError m => ⟨finalRaise opName maxRetries (.validationExc m), 1, []⟩
    | .otherError m =>
      let last := LastExc.otherExc m
      let ws := if attempt + 1 < maxRetries then [2 ^ attempt] else []
      let t := retryGo opName timeout maxRetries script remaining (attempt + 1) last
      ⟨t.result, t.attempts + 1, ws ++ t.waits⟩

/-- `MCPClientWrapper._execute_with_retry(operation_name, operation_func)`,
with the attempt outcomes scripted by attempt index. -/
def executeWithRetry (opName : String) (timeout maxRetries : Nat)
    (script : Nat → AttemptOutcome α) : RetryTrace α :=
  retryGo opName timeout maxRetries script maxRetries 0 .noExc

/-- An attempt outcome that is a failure the supervisor retries
(timeout or a non-classification exception). -/
def AttemptOutcome.retryableFail : AttemptOutcome α → Prop
  | .timeout => True
  | .otherError _ => True
  | _ => False

instance (o : AttemptOutcome α) : Decidable o.retryableFail := by
  cases o <;> simp [AttemptOutcome.retryableFail] <;> infer_instance

/-- The `last_exception` value recorded when an attempt ends with the given
retryable failure. -/
def excOf (opName : String) (timeout : Nat) : AttemptOutcome α → LastExc
  | .timeout => .timeoutExc (timeoutMsg opName timeout)
  | .otherError m => .otherExc m
  | _ => .noExc

lemma retryGo_allFail (opName : String) (t N : Nat) (script : Nat → AttemptOutcome α) :
    ∀ remaining attempt last, attempt + remaining = N → 1 ≤ remaining →
    (∀ i, attempt ≤ i → i < N → (script i).retryableFail) →
    retryGo opName t N script remaining attempt last =
      ⟨finalRaise opName N (excOf opName t (script (N - 1))), remaining,
       (List.range (remaining - 1)).map (fun i => 2 ^ (attempt + i))⟩ := by
  intro remaining
  induction remaining with
  | zero => intro attempt last _ h1; omega
  | succ r ih =>
    intro attempt last hsum _ hfail
    have hattempt : attempt < N := by omega
    have hscript := hfail attempt le_rfl hattempt
    rcases r.eq_zero_or_pos with hr | hr
    · subst hr
      have hlastidx : attempt = N - 1 := by omega
      have hnowait : ¬ (attempt + 1 < N) := by omega
      cases ho : script attempt with
      | success v => rw [ho] at hscript; simp [AttemptOutcome.retryableFail] at hscript
      | validationError m => rw [ho] at hscript; simp [AttemptOutcome.retryableFail] at hscript
      | timeout =>
        simp [retryGo, ho, hnowait, ← hlastidx, excOf]
      | otherError m =>
        simp [retryGo, ho, hnowait, ← hlastidx, excOf]
    · have hwait : attempt + 1 < N := by omega
      have hrec := ih (attempt + 1) (excOf opName t (script attempt))
        (by omega) hr (fun i hi hiN => hfail i (by omega) hiN)
      have hrange : (List.range r).map (fun i => 2 ^ (attempt + i)) =
          2 ^ attempt :: (List.range (r - 1)).map (fun i => 2 ^ (attempt + 1 + i)) := by
        obtain ⟨r', rfl⟩ : ∃ r', r = r' + 1 := ⟨r - 1, by omega⟩
        rw [List.range_succ_eq_map, List.map_cons, List.map_map]
        rw [show r' + 1 - 1 = r' from rfl, Nat.add_zero]
        congr 1
        apply List.map_congr_left
        intro a _
        simp only [Function.comp_apply, Nat.succ_eq_add_one]
        congr 1
        omega
      cases ho : script attempt with
      | success v => rw [ho] at hscript; simp [AttemptOutcome.retryableFail] at hscript
      | validationError m => rw [ho] at hscript; simp [AttemptOutcome.retryableFail] at hscript
      | timeout =>
        have hrec' := hrec
        simp only [retryGo, ho, hwait, if_pos]
        rw [show excOf opName t (script attempt) = .timeoutExc (timeoutMsg opName t) by
              rw [ho]; rfl] at hrec'
        rw [hrec']
        simp [hrange.symm]
      | otherError m =>
        have hrec' := hrec
        rw [show excOf opName t (script attempt) = .otherExc m by rw [ho]; rfl] at hrec'
        simp only [retryGo, ho, hwait, if_pos]
        rw [hrec']
        simp [hrange.symm]

/-- C1: with `max_retries = N ≥ 1` and an operation that fails with a
retryable error on every attempt, `_execute_with_retry` makes exactly `N`
attempts and sleeps `2 ^ i` after attempt `i` for each `i ∈ [0, N-2]`
(exponential backoff starting at 1), with no wait after the last attempt. -/
theorem retry_always_failing_attempts_and_backoff (opName : String) (t N : Nat)
    (script : Nat → AttemptOutcome α) (hN : 1 ≤ N)
    (hfail : ∀ i, i < N → (script i).retryableFail) :
    (executeWithRetry opName t N script).attempts = N ∧
    (executeWithRetry opName t N script).waits =
      (List.range (N - 1)).map (fun i => 2 ^ i) := by
  have h := retryGo_allFail opName t N script N 0 .noExc (by omega) hN
    (fun i _ hiN => hfail i hiN)
  rw [executeWithRetry, h]
  simp

/-- Closed instance of `retry_always_failing_attempts_and_backoff`:
three attempts, waits `[1, 2]`. -/
theorem retry_always_failing_attempts_and_backoff_witness :
    (executeWithRetry "list_tools" 30 3 (fun _ => AttemptOutcome.otherError (α := Nat) "boom")).attempts = 3 ∧
    (executeWithRetry "list_tools" 30 3 (fun _ => AttemptOutcome.otherError (α := Nat) "boom")).waits = [1, 2] := by
  have h := retry_always_failing_attempts_and_backoff "list_tools" 30 3
    (fun _ => AttemptOutcome.otherError (α := Nat) "boom") (by decide)
    (fun i _ => by trivial)
  simpa using h

/-- C2: if the first attempt fails with a classification error
(`ValueError`/`TypeError`), `_execute_with_retry` makes exactly one attempt,
performs no backoff wait, and immediately raises `MCPConnectionError`
carrying that error's message. -/
theorem retry_validation_error_single_attempt (opName : String) (t N : Nat)
    (script : Nat → AttemptOutcome α) (m : String) (hN : 1 ≤ N)
    (h0 : script 0 = .validationError m) :
    executeWithRetry opName t N script =
      ⟨.connectionError (opName ++ " failed after " ++ toString N ++ " attempts: " ++ m),
       1, []⟩ := by
  obtain ⟨N', rfl⟩ : ∃ N', N = N' + 1 := ⟨N - 1, by omega⟩
  simp [executeWithRetry, retryGo, h0, finalRaise, LastExc.str]

/-- Closed instance of `retry_validation_error_single_attempt`. -/
theorem retry_validation_error_single_attempt_witness :
    executeWithRetry "invoke_tool(get_feed)" 30 3
        (fun _ => AttemptOutcome.validationError (α := Nat) "bad type") =
      ⟨.connectionError "invoke_tool(get_feed) failed after 3 attempts: bad type", 1, []⟩ := by
  have h := retry_validation_error_single_attempt "invoke_tool(get_feed)" 30 3
    (fun _ => AttemptOutcome.validationError (α := Nat) "bad type") "bad type"
    (by decide) rfl
  simpa using h

/-- C3: when all `N` attempts fail with retryable errors (exhaustion),
the surfaced error is `MCPTimeoutError` if the last attempt timed out, and
otherwise `MCPConnectionError` naming the operation and the attempt count and
wrapping the last underlying failure. -/
theorem retry_exhaustion_error_classification (opName : String) (t N : Nat)
    (script : Nat → AttemptOutcome α) (hN : 1 ≤ N)
    (hfail : ∀ i, i < N → (script i).retryableFail) :
    (script (N - 1) = .timeout →
      (executeWithRetry opName t N script).result = .timeoutError (timeoutMsg opName t)) ∧
    (∀ m, script (N - 1) = .otherError m →
      (executeWithRetry opName t N script).result =
        .connectionError (opName ++ " failed after " ++ toString N ++ " attempts: " ++ m)) := by
  have h := retryGo_allFail opName t N script N 0 .noExc (by omega) hN
    (fun i _ hiN => hfail i hiN)
  rw [executeWithRetry, h]
  constructor
  · intro hto; rw [hto]; rfl
  · intro m hoe; rw [hoe]; rfl

/-- Closed instance of `retry_exhaustion_error_classification`: an
`invoke_tool` against a transport that times out on every attempt surfaces
`MCPTimeoutError`, not `MCPConnectionError`. -/
theorem retry_exhaustion_error_classification_witness :
    (executeWithRetry "invoke_tool(get_feed)" 30 3
        (fun _ => AttemptOutcome.timeout (α := Nat))).result =
      .timeoutError "invoke_tool(get_feed) timed out after 30 seconds" := by
  have h := retry_exhaustion_error_classification "invoke_tool(get_feed)" 30 3
    (fun _ => AttemptOutcome.timeout (α := Nat)) (by decide)
    (fun i _ => by trivial)
  exact h.1 rfl

/-! ## Strings: Python `.lower()` and the `in` substring operator -/

/-- Python's `needle in hay` substring test, over character lists. -/
def listContainsSub : List Char → List Char → Bool
  | [], needle => needle.isEmpty
  | h :: t, needle => needle.isPrefixOf (h :: t) || listContainsSub t needle

/-- Python's `needle in hay` on strings. -/
def strContains (hay needle : String) : Bool :=
  listContainsSub hay.toList needle.toList

/-- Python's `str.lower()` (ASCII case folding suffices here). -/
def pyLower (s : String) : String :=
  String.mk (s.toList.map Char.toLower)

/-! ## Tool schema model (src/client/mcp_client.py dataclasses) -/

/-- The `ToolParameter` dataclass. JSON default values are kept as strings. -/
structure ToolParameter where
  name : String
  parameter_type : String
  description : String
  required : Bool := false
  default : Option String := none
deriving Repr, DecidableEq

/-- The `ToolDef` dataclass; `metadata` is the optional string-keyed dict. -/
structure ToolDef where
  name : String
  description : String
  parameters : List ToolParameter
  metadata : Option (List (String × String)) := none
  identifier : String := ""
deriving Repr, DecidableEq

/-- The `ToolInvocationResult` dataclass. -/
structure ToolInvocationResult where
  content : String
  error_code : Nat
deriving Repr, DecidableEq

/-! ## `_infer_array_item_type` (src/client/anthropic_bridge.py, lines 276-303) -/

/-- Parameter-name tokens that suggest string items (line 290). -/
def nameStringHints : List String := ["language", "code", "tag", "name", "id"]

/-- Parameter-name tokens that suggest integer items (line 292). -/
def nameIntegerHints : List String := ["number", "count", "amount", "index"]

/-- Description keywords that suggest string items (line 298). -/
def descStringHints : List String := ["string", "text", "language"]

/-- Description keywords that suggest integer items (line 300). -/
def descIntegerHints : List String := ["number", "integer", "int"]

/-- `_infer_array_item_type(param)`: start from the `'string'` default, apply
name hints, then let a non-empty description's keywords overwrite the result. -/
def inferArrayItemType (param : ToolParameter) : String :=
  let itemType := "string"
  let nameLower := pyLower param.name
  let itemType :=
    if nameStringHints.any (fun h => strContains nameLower h) then "string"
    else if nameIntegerHints.any (fun h => strContains nameLower h) then "integer"
    else itemType
  if param.description ≠ "" then
    let descLower := pyLower param.description
    if descStringHints.any (fun h => strContains descLower h) then "string"
    else if descIntegerHints.any (fun h => strContains descLower h) then "integer"
    else itemType
  else itemType

/-! ## Endpoint construction (src/client/mcp_client.py vs src/rss_client.py) -/

/-- The characters `urllib.parse` accepts inside a URI scheme. -/
def isSchemeChar (c : Char) : Bool :=
  c.isAlpha || c.isDigit || c = '+' || c = '-' || c = '.'

/-- `urlparse(url).scheme`: the lowercased text before the first `':'`, when it
is non-empty, starts with a letter and contains only scheme characters;
otherwise the empty string. -/
def urlScheme (url : String) : String :=
  let cs := url.toList
  let pre := cs.takeWhile (fun c => c != ':')
  if pre.length < cs.length && !pre.isEmpty &&
      (match pre with | c :: _ => c.isAlpha | [] => false) && pre.all isSchemeChar then
    String.mk (pre.map Char.toLower)
  else ""

/-- Mutable state of `client.mcp_client.MCPClientWrapper`: the three config
attributes set by `__init__` plus the `tools` attribute that only ever appears
through the assignment inside `list_tools` (`none` = attribute absent). -/
structure MCPClientState where
  endpoint : String
  timeout : Nat
  maxRetries : Nat
  tools : Option (List ToolDef) := none
deriving Repr, DecidableEq

/-- `client.mcp_client.MCPClientWrapper.__init__`: stores the endpoint,
timeout and max_retries without validating the endpoint scheme. -/
def mcpClientInit (endpoint : String) (timeout : Nat) (maxRetries : Nat) :
    MCPClientState :=
  { endpoint := endpoint, timeout := timeout, maxRetries := maxRetries, tools := none }

/-- State of the duplicate wrapper in src/rss_client.py (no `tools` field). -/
structure RssClientState where
  endpoint : String
  timeout : Nat
  maxRetries : Nat
deriving Repr, DecidableEq

/-- `rss_client.MCPClientWrapper.__init__`: raises `ValueError` unless
`urlparse(endpoint).scheme` is `http` or `https` (src/rss_client.py,
lines 93-97). -/
def rssClientInit (endpoint : String) (timeout : Nat) (maxRetries : Nat) :
    Except String RssClientState :=
  if urlScheme endpoint = "http" || urlScheme endpoint = "https" then
    .ok { endpoint := endpoint, timeout := timeout, maxRetries := maxRetries }
  else
    .error ("Endpoint " ++ endpoint ++ " is not a valid HTTP(S) URL")

/-! ## `list_tools` (src/client/mcp_client.py, lines 201-249) -/

/-- A parameter block of a remote tool's `inputSchema.properties`, as read by
the `.get` calls on lines 226-229. -/
structure RawParamSchema where
  type : Option String := none
  description : Option String := none
  default : Option String := none
deriving Repr, DecidableEq

/-- A remote tool as returned by `session.list_tools()`. -/
structure RawTool where
  name : String
  description : String
  required : List String := []
  properties : List (String × RawParamSchema) := []
deriving Repr, DecidableEq

/-- The inner parameter loop of `list_tools` (lines 222-231). -/
def buildToolParams (required : List String) (props : List (String × RawParamSchema)) :
    List ToolParameter :=
  props.map (fun p =>
    { name := p.1
      parameter_type := p.2.type.getD "string"
      description := p.2.description.getD ""
      required := required.contains p.1
      default := p.2.default })

/-- The tool loop of `list_tools` (lines 218-241). -/
def buildToolDefs (endpoint : String) (raw : List RawTool) : List ToolDef :=
  raw.map (fun t =>
    { name := t.name
      description := t.description
      parameters := buildToolParams t.required t.properties
      metadata := some [("endpoint", endpoint)]
      identifier := t.name })

/-- `MCPClientWrapper.list_tools` as a state transformer: the session's raw
catalog (or its failure) is scripted. On success the built list is assigned to
`self.tools` (line 243) and returned; on failure the exception propagates
through `_safe_sse_operation` before any assignment, leaving the state as it
was. -/
def list_tools (st : MCPClientState) (sess : Except String (List RawTool)) :
    Except String (List ToolDef) × MCPClientState :=
  match sess with
  | .error e => (.error e, st)
  | .ok raw =>
    let ts := buildToolDefs st.endpoint raw
    (.ok ts, { st with tools := some ts })

/-- C5 (counterexample): the name of `tag_ids` matches a string name-hint, yet
with the description "number of items" the inferred item type is `integer` —
the description keywords overwrite the name-based inference, so the name is not
primary. -/
theorem infer_array_item_type_name_not_primary :
    nameStringHints.any (fun h => strContains (pyLower "tag_ids") h) = true ∧
    inferArrayItemType { name := "tag_ids", parameter_type := "array",
                         description := "number of items" } = "integer" := by decide

/-- C5 (amended): `_infer_array_item_type` applies name hints first (identifier
and tag tokens give string, count and index tokens give integer, default
string), but keywords of a non-empty description overwrite that choice;
`tag_ids` with empty description gives `string`, `max_count` gives `integer`. -/
theorem infer_array_item_type_amended (p : ToolParameter) :
    (p.description = "" →
      inferArrayItemType p =
        (if nameStringHints.any (fun h => strContains (pyLower p.name) h) then "string"
         else if nameIntegerHints.any (fun h => strContains (pyLower p.name) h) then "integer"
         else "string")) ∧
    (p.description ≠ "" →
      descStringHints.any (fun h => strContains (pyLower p.description) h) = true →
      inferArrayItemType p = "string") ∧
    (p.description ≠ "" →
      descStringHints.any (fun h => strContains (pyLower p.description) h) = false →
      descIntegerHints.any (fun h => strContains (pyLower p.description) h) = true →
      inferArrayItemType p = "integer") ∧
    inferArrayItemType { name := "tag_ids", parameter_type := "array",
                         description := "" } = "string" ∧
    inferArrayItemType { name := "max_count", parameter_type := "array",
                         description := "" } = "integer" := by
  refine ⟨?_, ?_, ?_, by decide, by decide⟩
  · intro h
    simp [inferArrayItemType, h]
  · intro h h1
    simp [inferArrayItemType, h, h1]
  · intro h h1 h2
    simp [inferArrayItemType, h, h1, h2]

/-- Closed instance of `infer_array_item_type_amended`: a description
containing "strings" forces string items. -/
theorem infer_array_item_type_amended_witness :
    inferArrayItemType { name := "tag_ids", parameter_type := "array",
                         description := "list of tag id strings" } = "string" := by
  have h := (infer_array_item_type_amended
    { name := "tag_ids", parameter_type := "array",
      description := "list of tag id strings" }).2.1 (by decide) (by decide)
  exact h

/-- C9 (code evaluated at the failing input): `client.mcp_client`'s
`__init__` accepts the endpoint `ftp://example.com` although its scheme is
`ftp`, while the duplicate constructor in `src/rss_client.py` rejects it with
the documented `ValueError` and accepts http/https endpoints. -/
theorem endpoint_scheme_validation_missing :
    urlScheme "ftp://example.com" = "ftp" ∧
    mcpClientInit "ftp://example.com" 30 3 =
      { endpoint := "ftp://example.com", timeout := 30, maxRetries := 3, tools := none } ∧
    rssClientInit "ftp://example.com" 30 3 =
      .error "Endpoint ftp://example.com is not a valid HTTP(S) URL" ∧
    rssClientInit "https://example.com" 30 3 =
      .ok { endpoint := "https://example.com", timeout := 30, maxRetries := 3 } ∧
    rssClientInit "http://example.com" 30 3 =
      .ok { endpoint := "http://example.com", timeout := 30, maxRetries := 3 } :=
  ⟨by decide, by decide, rfl, rfl, rfl⟩

/-- C7 (counterexample): a successful `list_tools` call changes the client
object — the fetched list is stored in the `tools` attribute (line 243 of
src/client/mcp_client.py), so not every field is unchanged. -/
theorem list_tools_mutates_tools_field :
    (list_tools (mcpClientInit "https://example.com" 30 3) (.ok [])).2 ≠
      mcpClientInit "https://example.com" 30 3 := by decide

/-- C7 (amended): `list_tools` leaves `endpoint`, `timeout` and `max_retries`
unchanged and performs no other update; on failure the whole state is
unchanged, but on success the fetched tool list is assigned to the `tools`
attribute and returned. -/
theorem list_tools_frame (st : MCPClientState) (raw : List RawTool) (e : String) :
    (list_tools st (.ok raw)).2.endpoint = st.endpoint ∧
    (list_tools st (.ok raw)).2.timeout = st.timeout ∧
    (list_tools st (.ok raw)).2.maxRetries = st.maxRetries ∧
    (list_tools st (.ok raw)).2.tools = some (buildToolDefs st.endpoint raw) ∧
    (list_tools st (.ok raw)).1 = .ok (buildToolDefs st.endpoint raw) ∧
    list_tools st (.error e) = (.error e, st) := by
  simp [list_tools]

/-! ## Anthropic formatting and the bridge (`src/client/anthropic_bridge.py`) -/

/-- A content block of an Anthropic response: free text or a tool-use request
(`content.type == 'tool_use'` with `name` and `input`). -/
inductive ContentBlock where
  | textBlock (text : String)
  | toolUseBlock (name : String) (input : List (String × String))
deriving Repr, DecidableEq

/-- The dictionary returned by `parse_tool_call` (name + parameters). -/
structure ToolCall where
  name : String
  parameters : List (String × String)
deriving Repr, DecidableEq

/-- `AnthropicBridge.parse_tool_call` (lines 205-221): scan the content blocks
in order, the first `tool_use` block wins, `None` if there is none. -/
def parse_tool_call : List ContentBlock → Option ToolCall
  | [] => none
  | .textBlock _ :: rest => parse_tool_call rest
  | .toolUseBlock n i :: _ => some { name := n, parameters := i }

/-- The `TYPE_MAPPING` dict of src/client/anthropic_bridge.py, lines 11-24. -/
def TYPE_MAPPING : List (String × String) :=
  [("int", "integer"), ("bool", "boolean"), ("str", "string"), ("float", "number"),
   ("list", "array"), ("dict", "object"), ("boolean", "boolean"), ("string", "string"),
   ("integer", "integer"), ("number", "number"), ("array", "array"), ("object", "object")]

/-- One property of an Anthropic `input_schema`: mapped type, description,
`items` type for arrays, and the optional default. -/
structure AnthropicParamSchema where
  type : String
  description : String
  items : Option String := none
  default : Option String := none
deriving Repr, DecidableEq

/-- One entry of the list built by `to_anthropic_format`. -/
structure AnthropicTool where
  name : String
  description : String
  properties : List (String × AnthropicParamSchema)
  required : List String
deriving Repr, DecidableEq

/-- `to_anthropic_format(tools)` (lines 225-273): map each parameter type
through `TYPE_MAPPING` (falling back to the original), attach an inferred
`items` type to arrays, carry non-null defaults, and collect required names. -/
def to_anthropic_format (tools : List ToolDef) : List AnthropicTool :=
  tools.map (fun tool =>
    { name := tool.name
      description := tool.description
      properties := tool.parameters.map (fun param =>
        let schemaType := (TYPE_MAPPING.lookup param.parameter_type).getD param.parameter_type
        (param.name,
         { type := schemaType
           description := param.description
           items := if schemaType = "array" then some (inferArrayItemType param) else none
           default := param.default }))
      required := (tool.parameters.filter (fun p => p.required)).map (fun p => p.name) })

/-- Mutable state of an `LLMBridge` instance: the per-instance `self.tools`
tool-catalog cache (`None` until `fetch_tools` stores a list). -/
structure BridgeState where
  tools : Option (List ToolDef)
deriving Repr, DecidableEq

/-- `LLMBridge.__init__`: every fresh bridge instance starts with
`self.tools = None` (line 37). -/
def bridgeInit : BridgeState := { tools := none }

/-- The dictionary built by `process_query` (lines 135-148). -/
structure QueryResult where
  llm_response : List ContentBlock
  tool_call : Option ToolCall
  tool_result : Option ToolInvocationResult
deriving Repr, DecidableEq

/-- Steps 2-5 of `process_query`, once the catalog `ts` is available:
format the tools, submit, parse a tool call, and dispatch it when present.
`fetches` counts the `list_tools` network calls made earlier in this
`process_query` invocation. -/
def processQueryRun (st : BridgeState) (ts : List ToolDef)
    (submit : List AnthropicTool → List ContentBlock)
    (execute : String → List (String × String) → Except String ToolInvocationResult)
    (fetches : Nat) :
    Except String QueryResult × BridgeState × Nat :=
  let resp := submit (to_anthropic_format ts)
  match parse_tool_call resp with
  | none => (.ok { llm_response := resp, tool_call := none, tool_result := none }, st, fetches)
  | some c =>
    match execute c.name c.parameters with
    | .error e => (.error e, st, fetches)
    | .ok r =>
      (.ok { llm_response := resp, tool_call := some c, tool_result := some r }, st, fetches)

/-- `LLMBridge.process_query(system_prompt, query)` (lines 106-148) with the
collaborators scripted: `fetch` is what `self.mcp_client.list_tools()` would
yield, `submit` the model round-trip, `execute` the tool dispatch. Step 1
fetches the catalog only when `self.tools is None` and stores it
(`fetch_tools`, line 47); the third component counts those fetches. -/
def process_query (st : BridgeState)
    (fetch : Except String (List ToolDef))
    (submit : List AnthropicTool → List ContentBlock)
    (execute : String → List (String × String) → Except String ToolInvocationResult) :
    Except String QueryResult × BridgeState × Nat :=
  match st.tools with
  | some ts => processQueryRun st ts submit execute 0
  | none =>
    match fetch with
    | .error e => (.error e, st, 1)
    | .ok ts => processQueryRun { st with tools := some ts } ts submit execute 1

/-! ## Orchestration loop (src/client/tool_workflows.py, src/client/interface.py) -/

/-- The two Python exceptions the reply-extraction code can raise:
`IndexError` from `content[0]` on an empty list, `AttributeError` from `.text`
on a non-text block. -/
inductive PyErr where
  | indexError
  | attributeError
deriving Repr, DecidableEq

/-- `result['llm_response'].content[0].text`. -/
def getText0 : List ContentBlock → Except PyErr String
  | [] => .error .indexError
  | .textBlock t :: _ => .ok t
  | .toolUseBlock _ _ :: _ => .error .attributeError

/-- The direct no-tool reply extraction of `agent_input`
(src/client/interface.py, lines 88-92): `try ... except AttributeError` only —
an `IndexError` is not caught. -/
def directReply (content : List ContentBlock) : Except PyErr String :=
  match getText0 content with
  | .ok t => .ok t
  | .error .attributeError => .ok "Bad reply - could not parse"
  | .error .indexError => .error .indexError

/-- The re-prompt reply extraction of `get_feed_call`
(src/client/tool_workflows.py, lines 149-154) and of the get_feed branch of
`agent_input` (src/client/interface.py, lines 78-83):
`try ... except (IndexError, AttributeError)`. -/
def getFeedReply (content : List ContentBlock) : String :=
  match getText0 content with
  | .ok t => t
  | .error _ => "No final reply from model"

/-- What one round of the model gives `other_call`: the `process_query` result
fields its control flow reads (the response content and whether a tool was
dispatched). -/
structure RoundResult where
  llmContent : List ContentBlock
  toolResult : Option ToolInvocationResult
deriving Repr, DecidableEq

/-- Control outcome of `other_call` (src/client/tool_workflows.py,
lines 161-215): a dispatched tool yields a `new_prompt` dictionary (prompt
text elided — it does not influence control flow), otherwise the reply text of
`content[0].text` is the final reply (its extraction is unguarded and can
raise). -/
inductive StepOut where
  | newPrompt
  | finalReply (text : String)
deriving Repr, DecidableEq

/-- The branch structure of `other_call` on one round's `process_query`
result. -/
def otherCallStep (r : RoundResult) : Except PyErr StepOut :=
  match r.toolResult with
  | some _ => .ok .newPrompt
  | none =>
    match getText0 r.llmContent with
    | .ok t => .ok (.finalReply t)
    | .error e => .error e

/-- The `while True` re-prompt loop of `tool_loop` (src/client/tool_workflows.py,
lines 78-93), run with `fuel` remaining iterations on the scripted rounds
`script`; `k` is the current round index. `none` means the loop is still
running after `fuel` iterations; `some` is the surfaced final reply or
exception. -/
def toolLoopRun (script : Nat → RoundResult) : Nat → Nat → Option (Except PyErr String)
  | 0, _ => none
  | fuel + 1, k =>
    match otherCallStep (script k) with
    | .error e => some (.error e)
    | .ok (.finalReply s) => some (.ok s)
    | .ok .newPrompt => toolLoopRun script fuel (k + 1)

/-- A model that requests (and gets dispatched) a further tool call on every
round. -/
def alwaysToolCallScript : Nat → RoundResult :=
  fun _ => { llmContent := [.textBlock "calling a tool"],
             toolResult := some { content := "feed data", error_code := 0 } }

/-- A model that calls a tool in round 0 and answers plainly in round 1. -/
def twoRoundScript : Nat → RoundResult :=
  fun k =>
    if k = 0 then
      { llmContent := [.textBlock "let me check"],
        toolResult := some { content := "feed data", error_code := 0 } }
    else
      { llmContent := [.textBlock "final answer"], toolResult := none }

lemma processQueryRun_state_fetches (st : BridgeState) (ts : List ToolDef)
    (submit : List AnthropicTool → List ContentBlock)
    (execute : String → List (String × String) → Except String ToolInvocationResult)
    (fetches : Nat) :
    (processQueryRun st ts submit execute fetches).2.1 = st ∧
    (processQueryRun st ts submit execute fetches).2.2 = fetches := by
  cases hpc : parse_tool_call (submit (to_anthropic_format ts)) with
  | none => simp [processQueryRun, hpc]
  | some c =>
    cases hex : execute c.name c.parameters with
    | error e => simp [processQueryRun, hpc, hex]
    | ok r => simp [processQueryRun, hpc, hex]

/-- C8: every fresh bridge instance starts with an empty per-instance cache;
a `process_query` call that finds the cache empty performs exactly one
`list_tools` fetch and stores the catalog in the instance; a call that finds
the cache filled performs no fetch and leaves the cached catalog in place. -/
theorem process_query_catalog_fetched_once
    (fetch : Except String (List ToolDef))
    (submit : List AnthropicTool → List ContentBlock)
    (execute : String → List (String × String) → Except String ToolInvocationResult)
    (ts : List ToolDef) :
    bridgeInit.tools = none ∧
    (∀ st : BridgeState, st.tools = none → fetch = .ok ts →
      (process_query st fetch submit execute).2.2 = 1 ∧
      (process_query st fetch submit execute).2.1.tools = some ts) ∧
    (∀ st : BridgeState, st.tools = some ts →
      (process_query st fetch submit execute).2.2 = 0 ∧
      (process_query st fetch submit execute).2.1.tools = some ts) := by
  refine ⟨rfl, ?_, ?_⟩
  · intro st hst hfetch
    have h := processQueryRun_state_fetches { st with tools := some ts } ts submit execute 1
    simp only [process_query, hst, hfetch]
    exact ⟨h.2, by rw [h.1]⟩
  · intro st hst
    have h := processQueryRun_state_fetches st ts submit execute 0
    simp only [process_query, hst]
    exact ⟨h.2, by rw [h.1]; exact hst⟩

/-- Closed instance of `process_query_catalog_fetched_once`: a first call on a
fresh instance fetches once and caches; the follow-up call refetches nothing. -/
theorem process_query_catalog_fetched_once_witness :
    (process_query bridgeInit (.ok []) (fun _ => []) (fun _ _ => .error "down")).2.2 = 1 ∧
    (process_query { tools := some [] } (.ok []) (fun _ => [])
      (fun _ _ => .error "down")).2.2 = 0 := by
  have h := process_query_catalog_fetched_once (.ok [])
    (fun _ => []) (fun _ _ => .error "down") []
  exact ⟨(h.2.1 bridgeInit rfl rfl).1, (h.2.2 { tools := some [] } rfl).1⟩

lemma processQueryRun_ok (st0 : BridgeState) (ts : List ToolDef)
    (submit : List AnthropicTool → List ContentBlock)
    (execute : String → List (String × String) → Except String ToolInvocationResult)
    (fetches : Nat) (res : QueryResult) (st' : BridgeState) (n : Nat)
    (h : processQueryRun st0 ts submit execute fetches = (.ok res, st', n)) :
    (res.tool_result.isSome ↔ res.tool_call.isSome) ∧
    (∀ c, res.tool_call = some c →
      execute c.name c.parameters =
        .ok (res.tool_result.getD { content := "", error_code := 0 })) := by
  simp only [processQueryRun] at h
  cases hpc : parse_tool_call (submit (to_anthropic_format ts)) with
  | none =>
    simp only [hpc] at h
    have hres := congrArg Prod.fst h
    simp only [Except.ok.injEq] at hres
    subst hres
    refine ⟨by simp, ?_⟩
    intro c hc
    simp at hc
  | some c0 =>
    simp only [hpc] at h
    cases hex : execute c0.name c0.parameters with
    | error e => simp only [hex] at h; simp at h
    | ok r =>
      simp only [hex] at h
      have hres := congrArg Prod.fst h
      simp only [Except.ok.injEq] at hres
      subst hres
      refine ⟨by simp, ?_⟩
      intro c hc
      simp only [Option.some.injEq] at hc
      subst hc
      simpa using hex

/-- C10: whenever `process_query` returns its result dictionary, `tool_result`
is set exactly when a tool call was parsed, and a parsed tool call is always
dispatched with its `ToolInvocationResult` stored in `tool_result`. -/
theorem process_query_tool_result_iff_tool_call (st : BridgeState)
    (fetch : Except String (List ToolDef))
    (submit : List AnthropicTool → List ContentBlock)
    (execute : String → List (String × String) → Except String ToolInvocationResult)
    (res : QueryResult) (st' : BridgeState) (n : Nat)
    (h : process_query st fetch submit execute = (.ok res, st', n)) :
    (res.tool_result.isSome ↔ res.tool_call.isSome) ∧
    (∀ c, res.tool_call = some c →
      execute c.name c.parameters =
        .ok (res.tool_result.getD { content := "", error_code := 0 })) := by
  unfold process_query at h
  cases hst : st.tools with
  | some ts =>
    rw [hst] at h
    exact processQueryRun_ok st ts submit execute 0 res st' n h
  | none =>
    rw [hst] at h
    cases hf : fetch with
    | error e => rw [hf] at h; simp at h
    | ok ts =>
      rw [hf] at h
      exact processQueryRun_ok { st with tools := some ts } ts submit execute 1 res st' n h

/-- A scripted model response that requests the get_feed tool. -/
def demoSubmit : List AnthropicTool → List ContentBlock :=
  fun _ => [.toolUseBlock "rss_mcp_server_get_feed" [("website", "example.com")]]

/-- A scripted dispatcher that returns a successful invocation result. -/
def demoExecute : String → List (String × String) → Except String ToolInvocationResult :=
  fun _ _ => .ok { content := "articles", error_code := 0 }

/-- The dictionary `process_query` builds for `demoSubmit`/`demoExecute`. -/
def demoResult : QueryResult :=
  { llm_response := [.toolUseBlock "rss_mcp_server_get_feed" [("website", "example.com")]]
    tool_call := some { name := "rss_mcp_server_get_feed"
                        parameters := [("website", "example.com")] }
    tool_result := some { content := "articles", error_code := 0 } }

/-- Closed instance of `process_query_tool_result_iff_tool_call`. -/
theorem process_query_tool_result_iff_tool_call_witness :
    demoResult.tool_result.isSome ↔ demoResult.tool_call.isSome :=
  (process_query_tool_result_iff_tool_call bridgeInit (.ok []) demoSubmit demoExecute
    demoResult { tools := some [] } 1 rfl).1

/-- C4 (counterexample): the `while True` loop of `tool_loop` has no iteration
bound — with a model that requests a further tool call on every round, no
amount of fuel makes the loop finish. -/
theorem tool_loop_unbounded :
    ¬ ∃ fuel, (toolLoopRun alwaysToolCallScript fuel 0).isSome = true := by
  have h : ∀ fuel k, toolLoopRun alwaysToolCallScript fuel k = none := by
    intro fuel
    induction fuel with
    | zero => intro k; rfl
    | succ m ih =>
      intro k
      simpa [toolLoopRun, alwaysToolCallScript, otherCallStep] using ih (k + 1)
  rintro ⟨fuel, hfuel⟩
  rw [h fuel 0] at hfuel
  simp at hfuel

lemma toolLoopRun_firstNoTool (script : Nat → RoundResult) (s : String) :
    ∀ d start, (∀ j, start ≤ j → j < start + d → (script j).toolResult.isSome) →
    (script (start + d)).toolResult = none →
    getText0 (script (start + d)).llmContent = .ok s →
    toolLoopRun script (d + 1) start = some (.ok s) := by
  intro d
  induction d with
  | zero =>
    intro start _ hnone htext
    simp only [Nat.add_zero] at hnone htext
    simp [toolLoopRun, otherCallStep, hnone, htext]
  | succ m ih =>
    intro start hsome hnone htext
    have hstart : (script start).toolResult.isSome := hsome start le_rfl (by omega)
    obtain ⟨tr, htr⟩ := Option.isSome_iff_exists.mp hstart
    have hrec := ih (start + 1)
      (fun j hj hj2 => hsome j (by omega) (by omega))
      (by rw [show start + 1 + m = start + (m + 1) by omega]; exact hnone)
      (by rw [show start + 1 + m = start + (m + 1) by omega]; exact htext)
    simp only [toolLoopRun, otherCallStep, htr]
    exact hrec

/-- C4 (amended): the re-prompt loop of `tool_loop` terminates exactly by the
model's choice — if every round before `k` dispatches a tool and round `k`
produces a reply with no tool call, the loop stops after `k + 1` iterations
with that round's text; there is no iteration bound of the loop's own. -/
theorem tool_loop_terminates_on_no_tool_round (script : Nat → RoundResult)
    (s : String) (k : Nat)
    (hsome : ∀ j, j < k → (script j).toolResult.isSome)
    (hnone : (script k).toolResult = none)
    (htext : getText0 (script k).llmContent = .ok s) :
    toolLoopRun script (k + 1) 0 = some (.ok s) := by
  have h := toolLoopRun_firstNoTool script s k 0
    (fun j hj hj2 => hsome j (by omega))
    (by simpa using hnone) (by simpa using htext)
  exact h

/-- Closed instance of `tool_loop_terminates_on_no_tool_round`: one tool round
followed by a plain reply terminates in two iterations. -/
theorem tool_loop_terminates_on_no_tool_round_witness :
    toolLoopRun twoRoundScript 2 0 = some (.ok "final answer") := by
  have h := tool_loop_terminates_on_no_tool_round twoRoundScript "final answer" 1
    (fun j hj => by
      have hj0 : j = 0 := by omega
      subst hj0
      decide)
    (by decide) (by decide)
  exact h

/-- C6 (code evaluated at the failing input): for an empty content list the
direct no-tool extraction of `agent_input` raises an uncaught `IndexError`
instead of substituting a fallback, while the re-prompt extraction substitutes
its fallback for both empty and malformed content, and the direct extraction
does substitute for malformed (non-text) content. -/
theorem direct_reply_empty_content_raises :
    directReply [] = .error .indexError ∧
    directReply [.toolUseBlock "rss_mcp_server_get_feed" []] =
      .ok "Bad reply - could not parse" ∧
    getFeedReply [] = "No final reply from model" ∧
    getFeedReply [.toolUseBlock "rss_mcp_server_get_feed" []] =
      "No final reply from model" := by
  decide

end RssMcpClient
